import Mathlib

/-!
Verification of `fetch.py` (WebpageDownloader), a single-pass batch webpage
downloader, against its natural-language specification.

The embedding is shallow:

* An HTML document is modelled as the pre-order sequence of its tags
  (`List Tag`), which is the view BeautifulSoup's `find_all` / `find`
  expose; attribute access, attribute mutation and serialisation all act
  on that sequence.
* The Python `urllib.parse.urljoin` (together with the pieces of
  `urlparse` / `urlunparse` it needs) is embedded over `List Char`,
  following the CPython implementation.
* `os.path.basename` and `str.split('?', 1)[0]` are embedded directly.
* Effects (printing, network requests, directory creation, file writes,
  the `metadata.json` store) are threaded through an explicit `World`
  state; the network and the external `validators.url` predicate are
  oracles in a `Config`.
* The metadata store file is `Option Store`: `none` means the file does
  not exist, `some s` is its parsed JSON object (an association list,
  which is how a JSON object with insertion order is represented;
  `upsert` mirrors Python dict assignment).
-/

namespace WebpageDownloader

/-! ## Generic list helpers -/

/-- Split a character list at the first occurrence of `sep`:
returns the part before it, and `some` rest after it if `sep` occurs. -/
def splitFirst (sep : Char) : List Char → List Char × Option (List Char)
  | [] => ([], none)
  | c :: cs =>
    if c = sep then ([], some cs)
    else
      let r := splitFirst sep cs
      (c :: r.1, r.2)

/-- Python `s.split(sep)` (no maxsplit) on character lists: always returns
at least one (possibly empty) group. -/
def splitAll (sep : Char) : List Char → List (List Char)
  | [] => [[]]
  | c :: cs =>
    match splitAll sep cs with
    | g :: gs => if c = sep then [] :: g :: gs else (c :: g) :: gs
    | [] => [[c]]

/-- Python dict assignment `d[k] = v` on an association list: replaces the
value at the first occurrence of `k`, or appends `(k, v)` if `k` is absent. -/
def upsert {α : Type} : List (String × α) → String → α → List (String × α)
  | [], k, v => [(k, v)]
  | (k1, v1) :: rest, k, v =>
    if k1 = k then (k, v) :: rest else (k1, v1) :: upsert rest k v

/-- Python dict lookup `d.get(k)` on an association list (first occurrence). -/
def lookupKV {α : Type} : List (String × α) → String → Option α
  | [], _ => none
  | (k1, v1) :: rest, k => if k1 = k then some v1 else lookupKV rest k

/-- Number of entries stored under key `k`. -/
def countKey {α : Type} (s : List (String × α)) (k : String) : Nat :=
  (s.filter (fun p => p.1 == k)).length

/-! ## CPython `urllib.parse` embedding (the parts `urljoin` uses) -/

/-- Characters allowed in a URL scheme (CPython `scheme_chars`):
letters, digits, `+`, `-`, `.`. -/
def isSchemeChar (c : Char) : Bool :=
  (97 ≤ c.toNat && c.toNat ≤ 122) || (65 ≤ c.toNat && c.toNat ≤ 90) ||
  (48 ≤ c.toNat && c.toNat ≤ 57) || c = '+' || c = '-' || c = '.'

/-- ASCII letter test (CPython `url[0].isascii() and url[0].isalpha()`). -/
def isAsciiAlpha (c : Char) : Bool :=
  (97 ≤ c.toNat && c.toNat ≤ 122) || (65 ≤ c.toNat && c.toNat ≤ 90)

/-- ASCII lower-casing of one character (Python `str.lower` on scheme text). -/
def lowerChar (c : Char) : Char :=
  if 65 ≤ c.toNat && c.toNat ≤ 90 then Char.ofNat (c.toNat + 32) else c

/-- Scheme extraction of CPython `urlsplit`: if the text before the first
`:` is a non-empty run of scheme characters starting with a letter, return
the lower-cased scheme and the remainder; otherwise `none`. -/
def splitScheme (l : List Char) : Option (List Char × List Char) :=
  match splitFirst ':' l with
  | (before, some rest) =>
    match before with
    | [] => none
    | c :: cs =>
      if isAsciiAlpha c && (c :: cs).all isSchemeChar then
        some ((c :: cs).map lowerChar, rest)
      else none
  | (_, none) => none

/-- CPython `_splitnetloc`: if the input starts with `//`, the netloc runs
until the first `/`, `?` or `#`; the delimiter stays with the remainder. -/
def splitNetloc (l : List Char) : List Char × List Char :=
  match l with
  | '/' :: '/' :: rest =>
    (rest.takeWhile (fun c => !(c = '/' || c = '?' || c = '#')),
     rest.dropWhile (fun c => !(c = '/' || c = '?' || c = '#')))
  | _ => ([], l)

/-- Python `url.split('#', 1)`: text before the first `#`, and the fragment
after it (empty if there is no `#`). -/
def splitFragment (l : List Char) : List Char × List Char :=
  match splitFirst '#' l with
  | (a, some b) => (a, b)
  | (a, none) => (a, [])

/-- Python `url.split('?', 1)`: text before the first `?`, and the query
after it (empty if there is no `?`). -/
def splitQueryPart (l : List Char) : List Char × List Char :=
  match splitFirst '?' l with
  | (a, some b) => (a, b)
  | (a, none) => (a, [])

/-- Result of CPython `urlsplit`. -/
structure SplitUrl where
  scheme : List Char
  netloc : List Char
  path : List Char
  query : List Char
  fragment : List Char
deriving DecidableEq

/-- CPython `urlsplit(url, scheme)` (with `allow_fragments=True`). -/
def urlsplit (url : List Char) (scheme : List Char) : SplitUrl :=
  let p1 := match splitScheme url with
    | some (s, r) => (s, r)
    | none => (scheme, url)
  let p2 := splitNetloc p1.2
  let p3 := splitFragment p2.2
  let p4 := splitQueryPart p3.1
  { scheme := p1.1, netloc := p2.1, path := p4.1, query := p4.2,
    fragment := p3.2 }

/-- Result of CPython `urlparse`. -/
structure ParsedUrl where
  scheme : List Char
  netloc : List Char
  path : List Char
  params : List Char
  query : List Char
  fragment : List Char
deriving DecidableEq

/-- CPython `_splitparams`: split the `;params` suffix off the last path
segment (searching for `;` only from the last `/` on, when one exists). -/
def splitparams (path : List Char) : List Char × List Char :=
  if ('/' : Char) ∈ path then
    let seg := (path.reverse.takeWhile (fun c => !(c = '/'))).reverse
    match splitFirst ';' seg with
    | (_, none) => (path, [])
    | (a, some b) => (path.take (path.length - seg.length) ++ a, b)
  else
    match splitFirst ';' path with
    | (a, none) => (a, [])
    | (a, some b) => (a, b)

/-- CPython `urlparse(url, scheme)`. -/
def urlparse (url : List Char) (scheme : List Char) : ParsedUrl :=
  let s := urlsplit url scheme
  let pp := splitparams s.path
  { scheme := s.scheme, netloc := s.netloc, path := pp.1, params := pp.2,
    query := s.query, fragment := s.fragment }

/-- CPython `urlunsplit` on raw components. -/
def urlunsplitChars (scheme netloc path query fragment : List Char) :
    List Char :=
  let url :=
    if netloc ≠ [] ∨ (path ≠ [] ∧ path.take 2 = ['/', '/']) then
      let p := if path ≠ [] ∧ path.head? ≠ some '/' then '/' :: path else path
      '/' :: '/' :: (netloc ++ p)
    else path
  let url := if scheme ≠ [] then scheme ++ ':' :: url else url
  let url := if query ≠ [] then url ++ '?' :: query else url
  if fragment ≠ [] then url ++ '#' :: fragment else url

/-- CPython `urlunparse`. -/
def urlunparse (u : ParsedUrl) : List Char :=
  let path := if u.params ≠ [] then u.path ++ ';' :: u.params else u.path
  urlunsplitChars u.scheme u.netloc path u.query u.fragment

/-- CPython `urllib.parse.uses_relative`. -/
def uses_relative : List String :=
  ["", "ftp", "http", "gopher", "nntp", "imap", "wais", "file", "https",
   "shttp", "mms", "prospero", "rtsp", "rtspu", "sftp", "svn", "svn+ssh",
   "ws", "wss"]

/-- CPython `urllib.parse.uses_netloc`. -/
def uses_netloc : List String :=
  ["", "ftp", "http", "gopher", "nntp", "telnet", "imap", "wais", "file",
   "mms", "https", "shttp", "snews", "prospero", "rtsp", "rtspu", "rsync",
   "svn", "svn+ssh", "sftp", "nfs", "git", "git+ssh", "ws", "wss"]

/-- CPython slice assignment `segments[1:-1] = filter(None, segments[1:-1])`:
drop empty groups from everything except the first and last element. -/
def filterMiddle (l : List (List Char)) : List (List Char) :=
  match l with
  | [] => []
  | [a] => [a]
  | a :: rest =>
    a :: ((rest.dropLast.filter (fun s => !s.isEmpty)) ++ [rest.getLastD []])

/-- CPython `urljoin` segment resolution loop: `..` pops (ignoring pops of
an empty stack), `.` is dropped, anything else is pushed. -/
def resolveSegs (segs : List (List Char)) : List (List Char) :=
  segs.foldl
    (fun acc seg =>
      if seg = ['.', '.'] then acc.dropLast
      else if seg = ['.'] then acc
      else acc ++ [seg])
    []

/-- CPython `urllib.parse.urljoin` on character lists. -/
def urljoinChars (base url : List Char) : List Char :=
  if base = [] then url
  else if url = [] then base
  else
    let pb := urlparse base []
    let pu := urlparse url pb.scheme
    if pu.scheme ≠ pb.scheme ∨ ¬ uses_relative.contains ⟨pu.scheme⟩ then url
    else if uses_netloc.contains ⟨pu.scheme⟩ ∧ pu.netloc ≠ [] then
      urlunparse pu
    else
      let netloc :=
        if uses_netloc.contains ⟨pu.scheme⟩ then pb.netloc else pu.netloc
      if pu.path = [] ∧ pu.params = [] then
        urlunparse
          { scheme := pu.scheme, netloc := netloc, path := pb.path,
            params := pb.params,
            query := if pu.query = [] then pb.query else pu.query,
            fragment := pu.fragment }
      else
        let baseParts := splitAll '/' pb.path
        let baseParts :=
          if baseParts.getLastD [] ≠ [] then baseParts.dropLast
          else baseParts
        let segments :=
          if pu.path.head? = some '/' then splitAll '/' pu.path
          else filterMiddle (baseParts ++ splitAll '/' pu.path)
        let resolved := resolveSegs segments
        let resolved :=
          if segments.getLastD [] = ['.'] ∨ segments.getLastD [] = ['.', '.']
          then resolved ++ [[]] else resolved
        let joined := List.intercalate ['/'] resolved
        let path2 := if joined = [] then ['/'] else joined
        urlunparse
          { scheme := pu.scheme, netloc := netloc, path := path2,
            params := pu.params, query := pu.query, fragment := pu.fragment }

/-- `urllib.parse.urljoin` on strings. -/
def urljoin (base url : String) : String := ⟨urljoinChars base.data url.data⟩

/-! ## `os.path` embedding -/

/-- `os.path.basename` (posix): everything after the last `/`
(`p[p.rfind('/') + 1:]`). -/
def basename (s : String) : String :=
  ⟨(s.data.reverse.takeWhile (fun c => !(c = '/'))).reverse⟩

/-- Python `s.split('?', 1)[0]`: everything before the first `?`. -/
def stripQuery (s : String) : String :=
  ⟨s.data.takeWhile (fun c => !(c = '?'))⟩

/-- `os.path.join` (posix) for two components. -/
def pathJoin (a b : String) : String :=
  if b.data.head? = some '/' then b
  else if a.data = [] ∨ a.data.getLastD ' ' = '/' then a ++ b
  else a ++ "/" ++ b

/-! ## HTML document model

A parsed document is the pre-order sequence of its tags.  `find_all`
filters that sequence, `find` takes the first match, reading an attribute
takes its first occurrence, and assigning an attribute replaces it in
place (BeautifulSoup attribute dictionaries). -/

/-- One HTML tag: its name and its attribute list. -/
structure Tag where
  name : String
  attrs : List (String × String)
deriving DecidableEq

/-- `tag.get(attr)`: the attribute's value, if present. -/
def getAttr (t : Tag) (attr : String) : Option String :=
  lookupKV t.attrs attr

/-- `tag[attr] = v`: set (or add) an attribute. -/
def setAttr (t : Tag) (attr v : String) : Tag :=
  { name := t.name, attrs := upsert t.attrs attr v }

/-- `soup.find(name)`: first tag with the given name, in document order. -/
def findTag (doc : List Tag) (name : String) : Option Tag :=
  doc.find? (fun t => t.name == name)

/-- Python truthiness of an optional attribute value: false for a missing
attribute and for the empty string. -/
def truthy : Option String → Bool
  | none => false
  | some s => !(s == "")

/-- `tag.get(attr)` is truthy. -/
def truthyAttr (t : Tag) (attr : String) : Bool :=
  truthy (getAttr t attr)

/-! ## `fetch.py` constants -/

/-- `POPULAR_EXTENSIONS` from `fetch.py`. -/
def POPULAR_EXTENSIONS : List String :=
  [".jpg", ".jpeg", ".png", ".gif", ".bmp", ".svg", ".webp", ".mp4",
   ".avi", ".mkv", ".mov", ".wmv", ".flv", ".webm", ".js", ".css"]

/-- `file_name.endswith(POPULAR_EXTENSIONS)`: case-sensitive suffix match
against any allow-listed extension. -/
def endsWithAnyExt (s : String) : Bool :=
  POPULAR_EXTENSIONS.any (fun e => e.data.isSuffixOf s.data)

/-- `ASSET_TAG_ATTRIBUTES` from `fetch.py`. -/
def ASSET_TAG_ATTRIBUTES : List (String × String) :=
  [("img", "src"), ("script", "src"), ("link", "href")]

/-- A tag is an asset tag when its name is a key of
`ASSET_TAG_ATTRIBUTES` (what `soup.find_all(ASSET_TAG_ATTRIBUTES.keys())`
selects). -/
def isAssetTag (t : Tag) : Bool :=
  (lookupKV ASSET_TAG_ATTRIBUTES t.name).isSome

/-- `ASSET_TAG_ATTRIBUTES[name]`: the reference attribute for an asset
tag name. -/
def assetAttrName (name : String) : String :=
  (lookupKV ASSET_TAG_ATTRIBUTES name).getD ""

/-! ## Metadata store -/

/-- One record of `metadata.json`: `links`, `site`, `last_fetch`. -/
structure MetadataRecord where
  links : Nat
  site : String
  last_fetch : String
deriving DecidableEq

/-- The parsed `metadata.json` object, insertion-ordered. -/
abbrev Store := List (String × MetadataRecord)

/-- `read_metadata_file` from `fetch.py`: returns the parsed store and the
state of the file afterwards.  If the file does not exist it is CREATED,
holding the empty object, before being read. -/
def read_metadata_file : Option Store → Store × Option Store
  | none => ([], some [])
  | some s => (s, some s)

/-- `store_metadata` from `fetch.py`: read the whole store, extend the new
record with `site` (the identifier) and `last_fetch` (the timestamp `now`
captured at call time), overwrite the entry under the identifier, and
write the whole store back. -/
def store_metadata (id : String) (links : Nat) (now : String)
    (fs : Option Store) : Option Store :=
  let r := read_metadata_file fs
  some (upsert r.1 id { links := links, site := id, last_fetch := now })

/-! ## Effect model -/

/-- Operator-visible messages (print formatting itself is out of the
spec's scope, so messages are constructors rather than formatted text). -/
inductive Msg where
  | invalid (url : String)
  | failed (url : String) (status : Nat)
  | notFound (url : String)
  | record (r : MetadataRecord)
deriving DecidableEq

/-- The observable state threaded through a run: printed messages, the
URLs requested over the network (page and asset GETs), the directories
that exist, asset files written, HTML pages written (content is the
serialised tag sequence), and the `metadata.json` file. -/
structure World where
  output : List Msg
  fetched : List String
  dirs : List String
  files : List (String × String)
  pages : List (String × List Tag)
  metadata : Option Store
deriving DecidableEq

/-- The run's oracles: the external `validators.url` predicate, the page
GET (sent with the fixed User-Agent header; its body arrives already
parsed into the tag sequence), the plain asset GET, and the clock. -/
structure Config where
  valid : String → Bool
  http : String → Nat × List Tag
  httpAsset : String → Nat × String
  now : String

/-- `is_valid_url` from `fetch.py` (delegates to the external
`validators.url`). -/
def is_valid_url (cfg : Config) (url : String) : Bool :=
  cfg.valid url

/-- `fetch_metadata` from `fetch.py`: read the store (creating the file if
absent), then for each URL print either its record or a not-found
message, keyed by the URL's basename. -/
def fetch_metadata (urls : List String) (fs : Option Store) :
    List Msg × Option Store :=
  let r := read_metadata_file fs
  (urls.map (fun url =>
      match lookupKV r.1 (basename url) with
      | none => Msg.notFound url
      | some m => Msg.record m),
   r.2)

/-- `get_number_of_links` from `fetch.py`: `find_all('a')`, then count the
tags whose `href` is truthy. -/
def get_number_of_links (doc : List Tag) : Nat :=
  (doc.filter (fun t => t.name == "a")).foldl
    (fun count asset => if truthyAttr asset "href" then count + 1 else count)
    0

/-- Lines 91-98 of `fetch.py`: the base URL is the page URL, overridden by
`soup.find('base')`'s `href` when that first base tag exists and its
`href` is truthy. -/
def baseUrlOf (url : String) (doc : List Tag) : String :=
  match findTag doc "base" with
  | none => url
  | some t =>
    match getAttr t "href" with
    | none => url
    | some h => if h = "" then url else h

/-- Lines 94-95 of `fetch.py`: `os.makedirs(directory)` unless the path
already exists. -/
def mkdirIfNeeded (w : World) (directory : String) : World :=
  if directory ∈ w.dirs then w else { w with dirs := w.dirs ++ [directory] }

/-- The body of the asset loop (lines 100-119 of `fetch.py`) for one
asset tag: skip if the reference attribute is missing or empty, resolve
it with `urljoin`, derive the candidate filename, skip unless its
extension is allow-listed, GET it (no headers), skip silently on non-200,
otherwise write the file and rewrite the tag's reference to the local
path. -/
def processAsset (cfg : Config) (base_url directory : String) (w : World)
    (t : Tag) : Tag × World :=
  let link_attribute := assetAttrName t.name
  match getAttr t link_attribute with
  | none => (t, w)
  | some asset_url =>
    if asset_url = "" then (t, w)
    else
      let full_url := urljoin base_url asset_url
      let file_name := stripQuery (basename full_url)
      if endsWithAnyExt file_name = false then (t, w)
      else
        let resp := cfg.httpAsset full_url
        let w1 := { w with fetched := w.fetched ++ [full_url] }
        if resp.1 ≠ 200 then (t, w1)
        else
          let file_path := pathJoin directory file_name
          let w2 := { w1 with files := upsert w1.files file_path resp.2 }
          (setAttr t link_attribute file_path, w2)

/-- The asset loop over the document: asset tags (the tags
`find_all(['img', 'script', 'link'])` yields, in document order) are
processed and possibly rewritten in place; other tags pass through. -/
def processTags (cfg : Config) (base_url directory : String) :
    World → List Tag → List Tag × World
  | w, [] => ([], w)
  | w, t :: ts =>
    let r := if isAssetTag t then processAsset cfg base_url directory w t
             else (t, w)
    let rest := processTags cfg base_url directory r.2 ts
    (r.1 :: rest.1, rest.2)

/-- `download_assets` from `fetch.py`: ensure the per-page directory
(named by the page URL's basename) exists — unconditionally, before any
asset is examined — then run the asset loop with the resolved base URL,
returning the serialised (possibly rewritten) document and the new
state. -/
def download_assets (cfg : Config) (url : String) (doc : List Tag)
    (w : World) : List Tag × World :=
  processTags cfg (baseUrlOf url doc) (basename url)
    (mkdirIfNeeded w (basename url)) doc

/-- The body of the `download` loop (lines 39-55 of `fetch.py`) for one
URL: validate, GET the page, skip non-200 with a message, otherwise count
links, download assets, write `<basename>.html`, and upsert the metadata
record. -/
def processUrl (cfg : Config) (w : World) (url : String) : World :=
  if is_valid_url cfg url = false then
    { w with output := w.output ++ [Msg.invalid url] }
  else
    let resp := cfg.http url
    let w1 := { w with fetched := w.fetched ++ [url] }
    if resp.1 ≠ 200 then
      { w1 with output := w1.output ++ [Msg.failed url resp.1] }
    else
      let link_count := get_number_of_links resp.2
      let file_name := basename url
      let r := download_assets cfg url resp.2 w1
      let w2 := { r.2 with pages := upsert r.2.pages (file_name ++ ".html") r.1 }
      { w2 with metadata := store_metadata file_name link_count cfg.now w2.metadata }

/-- `download` from `fetch.py`: process the URLs in order. -/
def download (cfg : Config) (w : World) (urls : List String) : World :=
  urls.foldl (processUrl cfg) w

/-! ## Spec-side definitions (for refinement claims) -/

/-- The spec's "number of anchor tags whose reference attribute is present
and non-empty". -/
def spec_link_count (doc : List Tag) : Nat :=
  (doc.filter (fun t =>
      t.name == "a" && (getAttr t "href").isSome
        && !(getAttr t "href" == some ""))).length

/-- The final path segment of a string, by a forward scan: drop everything
up to and including the last `/`. -/
def lastSegment : List Char → List Char
  | [] => []
  | c :: cs =>
    if c = '/' then lastSegment cs
    else if ('/' : Char) ∈ cs then lastSegment cs
    else c :: lastSegment cs

/-- The spec's candidate filename: the final path segment of the resolved
URL, with everything from the first `?` onward stripped. -/
def spec_candidate (u : String) : String :=
  ⟨(lastSegment u.data).takeWhile (fun c => !(c = '?'))⟩

/-! ## Helper lemmas -/

theorem lookupKV_upsert {α : Type} (s : List (String × α)) (k : String)
    (v : α) : lookupKV (upsert s k v) k = some v := by
  induction s with
  | nil => simp [upsert, lookupKV]
  | cons p rest ih =>
    obtain ⟨k1, v1⟩ := p
    by_cases h : k1 = k
    · simp [upsert, h, lookupKV]
    · simp [upsert, h, lookupKV, ih]

theorem countKey_upsert {α : Type} (s : List (String × α)) (k : String)
    (v : α) :
    countKey (upsert s k v) k
      = if countKey s k = 0 then 1 else countKey s k := by
  induction s with
  | nil => simp [upsert, countKey]
  | cons p rest ih =>
    obtain ⟨k1, v1⟩ := p
    by_cases h : k1 = k
    · simp [upsert, h, countKey, List.filter_cons]
    · simp only [upsert, if_neg h, countKey, List.filter_cons]
      have hbeq : (k1 == k) = false := by simp [h]
      simp only [hbeq, Bool.false_eq_true, if_false]
      exact ih

theorem foldl_count_filter (p : Tag → Bool) (l : List Tag) (n : Nat) :
    l.foldl (fun count t => if p t then count + 1 else count) n
      = n + (l.filter p).length := by
  induction l generalizing n with
  | nil => simp
  | cons t ts ih =>
    by_cases h : p t
    · simp only [List.foldl_cons, List.filter_cons, h, if_pos, if_true,
        List.length_cons, ih]
      omega
    · simp [h, ih]

theorem takeWhile_append_all {α : Type} {p : α → Bool} {xs : List α}
    (ys : List α) (h : ∀ x ∈ xs, p x = true) :
    (xs ++ ys).takeWhile p = xs ++ ys.takeWhile p := by
  induction xs with
  | nil => simp
  | cons a l ih =>
    have ha := h a (by simp)
    simp [List.takeWhile_cons, ha, ih (fun x hx => h x (by simp [hx]))]

theorem takeWhile_all {α : Type} {p : α → Bool} {xs : List α}
    (h : ∀ x ∈ xs, p x = true) : xs.takeWhile p = xs := by
  induction xs with
  | nil => rfl
  | cons a l ih =>
    have ha := h a (by simp)
    simp [List.takeWhile_cons, ha, ih (fun x hx => h x (by simp [hx]))]

theorem takeWhile_append_stop {α : Type} {p : α → Bool} {xs : List α}
    (ys : List α) (h : ∃ x ∈ xs, p x = false) :
    (xs ++ ys).takeWhile p = xs.takeWhile p := by
  induction xs with
  | nil =>
    obtain ⟨x, hx, _⟩ := h
    simp at hx
  | cons a l ih =>
    by_cases ha : p a
    · have hl : ∃ x ∈ l, p x = false := by
        obtain ⟨x, hx, hpx⟩ := h
        rcases List.mem_cons.mp hx with hax | hx2
        · subst hax; rw [ha] at hpx; cases hpx
        · exact ⟨x, hx2, hpx⟩
      simp [List.takeWhile_cons, ha, ih hl]
    · have ha2 : p a = false := by simpa using ha
      simp [List.takeWhile_cons, ha2]

theorem lastSegment_eq (l : List Char) :
    lastSegment l = (l.reverse.takeWhile (fun c => !(c = '/'))).reverse := by
  induction l with
  | nil => rfl
  | cons c cs ih =>
    have hrev : (c :: cs).reverse = cs.reverse ++ [c] := List.reverse_cons c cs
    by_cases hc : c = '/'
    · subst hc
      by_cases hm : ('/' : Char) ∈ cs
      · have hstop : ∃ x ∈ cs.reverse, (fun c => !(c = '/')) x = false :=
          ⟨'/', List.mem_reverse.mpr hm, by simp⟩
        rw [lastSegment, if_pos rfl, ih, hrev, takeWhile_append_stop _ hstop]
      · have hall : ∀ x ∈ cs.reverse, (fun c => !(c = '/')) x = true := by
          intro x hx
          have : x ∈ cs := List.mem_reverse.mp hx
          simp only [Bool.not_eq_true']
          by_contra hxe
          exact hm (by simpa using (by simpa using hxe : x = '/') ▸ this)
        rw [lastSegment, if_pos rfl, ih, hrev, takeWhile_append_all _ hall]
        rw [takeWhile_all hall]
        simp
    · by_cases hm : ('/' : Char) ∈ cs
      · have hstop : ∃ x ∈ cs.reverse, (fun c => !(c = '/')) x = false :=
          ⟨'/', List.mem_reverse.mpr hm, by simp⟩
        rw [lastSegment, if_neg hc, if_pos hm, ih, hrev,
          takeWhile_append_stop _ hstop]
      · have hall : ∀ x ∈ cs.reverse, (fun c => !(c = '/')) x = true := by
          intro x hx
          have : x ∈ cs := List.mem_reverse.mp hx
          simp only [Bool.not_eq_true']
          by_contra hxe
          exact hm (by simpa using (by simpa using hxe : x = '/') ▸ this)
        rw [lastSegment, if_neg hc, if_neg hm, ih, hrev,
          takeWhile_append_all _ hall, takeWhile_all hall]
        simp [hc]

theorem processTags_no_assets (cfg : Config) (b d : String) (w : World)
    (doc : List Tag) (h : ∀ t ∈ doc, isAssetTag t = false) :
    processTags cfg b d w doc = (doc, w) := by
  induction doc generalizing w with
  | nil => rfl
  | cons t ts ih =>
    have ht := h t (by simp)
    simp [processTags, ht, ih _ (fun x hx => h x (by simp [hx]))]

theorem processAsset_skip_ext (cfg : Config) (b d : String) (t : Tag)
    (v : String)
    (h1 : getAttr t (assetAttrName t.name) = some v) (h2 : v ≠ "")
    (h3 : endsWithAnyExt (stripQuery (basename (urljoin b v))) = false) :
    ∀ w, processAsset cfg b d w t = (t, w) := by
  intro w
  simp only [processAsset, h1]
  rw [if_neg h2, if_pos h3]

theorem processAsset_skip_status (cfg : Config) (b d : String) (t : Tag)
    (v : String)
    (h1 : getAttr t (assetAttrName t.name) = some v) (h2 : v ≠ "")
    (h3 : endsWithAnyExt (stripQuery (basename (urljoin b v))) = true)
    (h4 : (cfg.httpAsset (urljoin b v)).1 ≠ 200) :
    ∀ w, processAsset cfg b d w t
      = (t, { w with fetched := w.fetched ++ [urljoin b v] }) := by
  intro w
  simp only [processAsset, h1]
  rw [if_neg h2, if_neg (by simp [h3]), if_pos h4]

theorem processTags_get_of_fixed (cfg : Config) (b d : String) (t : Tag)
    (hfix : ∀ w, (processAsset cfg b d w t).1 = t) :
    ∀ (doc : List Tag) (w : World) (i : Nat), doc.get? i = some t →
      (processTags cfg b d w doc).1.get? i = some t := by
  intro doc
  induction doc with
  | nil => intro w i h; simp at h
  | cons t0 ts ih =>
    intro w i h
    cases i with
    | zero =>
      simp only [List.get?_cons_zero, Option.some.injEq] at h
      subst h
      by_cases ha : isAssetTag t0
      · simp [processTags, ha, hfix]
      · simp [processTags, ha]
    | succ n =>
      simp only [List.get?_cons_succ] at h
      simp only [processTags, List.get?_cons_succ]
      exact ih _ n h

/-! ## Concrete instances used by witnesses -/

/-- The empty initial state. -/
def w0 : World :=
  { output := [], fetched := [], dirs := [], files := [], pages := [],
    metadata := none }

/-- A store holding one record under a key other than `page`. -/
def c1store : Store :=
  [("other", { links := 3, site := "other", last_fetch := "2024-01-01" })]

/-- A document whose first `base` tag has no `href` while a later `base`
tag carries a non-empty one. -/
def c2doc : List Tag :=
  [⟨"base", []⟩, ⟨"base", [("href", "https://cdn.example.com/")]⟩,
   ⟨"img", [("src", "img/x.jpg")]⟩]

/-- Oracles that answer every page request with a 404. -/
def cfg7 : Config :=
  { valid := fun _ => true, http := fun _ => (404, []),
    httpAsset := fun _ => (404, ""), now := "2024-01-01" }

/-- Oracles whose validator rejects everything. -/
def cfg8 : Config :=
  { valid := fun _ => false, http := fun _ => (200, []),
    httpAsset := fun _ => (200, ""), now := "2024-01-01" }

/-- Oracles that answer every asset request with a 404. -/
def cfg9 : Config :=
  { valid := fun _ => true, http := fun _ => (200, []),
    httpAsset := fun _ => (404, ""), now := "2024-01-01" }

/-- Oracles that answer every request with a 200. -/
def cfg3 : Config :=
  { valid := fun _ => true, http := fun _ => (200, []),
    httpAsset := fun _ => (200, "bytes"), now := "2024-01-01" }

/-! ## Claims -/

/-- Claim C6: for every HTML document, the reported link count equals the
number of anchor tags whose `href` attribute is present and non-empty;
anchors without the attribute, or with an empty value, are not counted. -/
theorem c6_link_count (doc : List Tag) :
    get_number_of_links doc = spec_link_count doc := by
  unfold get_number_of_links spec_link_count
  rw [foldl_count_filter]
  rw [Nat.zero_add, List.filter_filter]
  congr 1
  apply List.filter_congr
  intro t _
  cases h : getAttr t "href" with
  | none => simp [truthyAttr, truthy, h]
  | some s => simp [truthyAttr, truthy, h, Bool.and_comm]

/-- Claim C5: upserting a metadata record twice under the same Page
Identifier leaves exactly one record under that identifier, reflecting
the second call's values, with `site` equal to the identifier and
`last_fetch` equal to the second call's timestamp. -/
theorem c5_metadata_upsert_twice (fs : Option Store) (id : String)
    (l1 l2 : Nat) (t1 t2 : String)
    (h : countKey (read_metadata_file fs).1 id ≤ 1) :
    ∃ s, store_metadata id l2 t2 (store_metadata id l1 t1 fs) = some s
      ∧ countKey s id = 1
      ∧ lookupKV s id = some { links := l2, site := id, last_fetch := t2 } := by
  refine ⟨_, rfl, ?_, ?_⟩
  · show countKey
      (upsert (read_metadata_file (store_metadata id l1 t1 fs)).1 id
        { links := l2, site := id, last_fetch := t2 }) id = 1
    have hmid :
        (read_metadata_file (store_metadata id l1 t1 fs)).1
          = upsert (read_metadata_file fs).1 id
              { links := l1, site := id, last_fetch := t1 } := rfl
    rw [hmid, countKey_upsert, countKey_upsert]
    rcases Nat.eq_zero_or_pos (countKey (read_metadata_file fs).1 id) with
      h0 | hpos
    · simp [h0]
    · have h1 : countKey (read_metadata_file fs).1 id = 1 := by omega
      simp [h1]
  · exact lookupKV_upsert _ _ _

/-- Witness for C5 at a concrete input: an absent store file and two
upserts under `page`. -/
theorem c5_witness :
    countKey (read_metadata_file (none : Option Store)).1 "page" ≤ 1
    ∧ ∃ s, store_metadata "page" 2 "t2" (store_metadata "page" 1 "t1" none)
          = some s
        ∧ countKey s "page" = 1
        ∧ lookupKV s "page"
            = some { links := 2, site := "page", last_fetch := "t2" } :=
  ⟨by decide, c5_metadata_upsert_twice none "page" 1 2 "t1" "t2" (by decide)⟩

/-- Claim C1 (amended): in metadata-display mode, each requested URL whose
Page Identifier is absent from the store yields a not-found message at its
position and processing covers every URL; an existing `metadata.json` is
neither modified nor removed.  However, when the file does not exist, the
read step creates it holding the empty object (this is the one deviation
from the claim as stated). -/
theorem c1_metadata_display (s : Store) (urls : List String) :
    (fetch_metadata urls (some s)).2 = some s
    ∧ (fetch_metadata urls (some s)).1.length = urls.length
    ∧ (∀ (i : Nat) (url : String), urls.get? i = some url →
        lookupKV s (basename url) = none →
        (fetch_metadata urls (some s)).1.get? i = some (Msg.notFound url))
    ∧ (fetch_metadata urls (none : Option Store)).2 = some [] := by
  refine ⟨rfl, by simp [fetch_metadata, read_metadata_file], ?_, rfl⟩
  intro i url hi hl
  have hmap : (fetch_metadata urls (some s)).1
      = urls.map (fun url =>
          match lookupKV s (basename url) with
          | none => Msg.notFound url
          | some m => Msg.record m) := rfl
  rw [hmap, List.get?_map, hi]
  simp [hl]

/-- Witness for C1 at a concrete input: a store without `page`, queried
for a URL whose identifier is `page`. -/
theorem c1_witness :
    (fetch_metadata ["https://example.com/page"] (some c1store)).2
      = some c1store
    ∧ (fetch_metadata ["https://example.com/page"] (some c1store)).1.get? 0
        = some (Msg.notFound "https://example.com/page") :=
  ⟨(c1_metadata_display c1store ["https://example.com/page"]).1,
   (c1_metadata_display c1store ["https://example.com/page"]).2.2.1 0
     "https://example.com/page" rfl (by decide)⟩

/-- Counterexample to C1 as stated: invoking metadata-display mode for a
never-downloaded URL with no `metadata.json` present does print the
not-found message, but CREATES `metadata.json` (holding the empty object),
contradicting "does not create or modify the metadata.json file". -/
theorem c1_counterexample :
    (fetch_metadata ["https://example.com/page"] none).1
      = [Msg.notFound "https://example.com/page"]
    ∧ (fetch_metadata ["https://example.com/page"] none).2 = some []
    ∧ some ([] : Store) ≠ (none : Option Store) :=
  ⟨rfl, rfl, by decide⟩

/-- Claim C7: a page whose fetch returns a non-200 status is skipped with
an operator-visible message: the state changes only by the logged request
and the message (no HTML file, no per-page directory, no metadata record),
and processing continues with the remaining URLs. -/
theorem c7_non200_page_skipped (cfg : Config) (w : World) (url : String)
    (rest : List String)
    (hv : is_valid_url cfg url = true)
    (hs : (cfg.http url).1 ≠ 200) :
    processUrl cfg w url
      = { w with fetched := w.fetched ++ [url],
                 output := w.output ++ [Msg.failed url (cfg.http url).1] }
    ∧ download cfg w (url :: rest) = download cfg (processUrl cfg w url) rest := by
  constructor
  · simp only [processUrl, hv]
    simp [hs]
  · rfl

/-- Witness for C7 at a concrete input: a 404 page fetch. -/
theorem c7_witness :
    processUrl cfg7 w0 "https://example.com/page"
      = { output := [Msg.failed "https://example.com/page" 404],
          fetched := ["https://example.com/page"], dirs := [], files := [],
          pages := [], metadata := none } :=
  ((c7_non200_page_skipped cfg7 w0 "https://example.com/page" [] rfl
      (by decide)).1).trans (by decide)

/-- Claim C8: a URL the validator rejects is reported and skipped with no
network call (the state changes only by the message), and processing
continues with the remaining URLs. -/
theorem c8_invalid_url_skipped (cfg : Config) (w : World) (url : String)
    (rest : List String)
    (hv : is_valid_url cfg url = false) :
    processUrl cfg w url = { w with output := w.output ++ [Msg.invalid url] }
    ∧ download cfg w (url :: rest) = download cfg (processUrl cfg w url) rest := by
  constructor
  · simp [processUrl, hv]
  · rfl

/-- Witness for C8 at a concrete input: a rejected URL. -/
theorem c8_witness :
    processUrl cfg8 w0 "not-a-url"
      = { output := [Msg.invalid "not-a-url"], fetched := [], dirs := [],
          files := [], pages := [], metadata := none } :=
  ((c8_invalid_url_skipped cfg8 w0 "not-a-url" [] rfl).1).trans (by decide)

/-- Claim C10: `download_assets` (run for every page whose fetch returned
200) creates the per-page directory (named by the Page Identifier) when
it does not already exist, even when the document contains no asset tags
at all — in which case nothing else changes and no asset is downloaded. -/
theorem c10_dir_created (cfg : Config) (url : String) (doc : List Tag)
    (w : World)
    (h1 : basename url ∉ w.dirs)
    (h2 : ∀ t ∈ doc, isAssetTag t = false) :
    download_assets cfg url doc w
      = (doc, { w with dirs := w.dirs ++ [basename url] }) := by
  unfold download_assets mkdirIfNeeded
  rw [if_neg h1]
  exact processTags_no_assets cfg (baseUrlOf url doc) (basename url) _ doc h2

/-- Witness for C10 at a concrete input: a 200 page with no asset tags. -/
theorem c10_witness :
    download_assets cfg3 "https://example.com/page" [⟨"p", []⟩] w0
      = ([⟨"p", []⟩],
         { output := [], fetched := [], dirs := ["page"], files := [],
           pages := [], metadata := none }) :=
  (c10_dir_created cfg3 "https://example.com/page" [⟨"p", []⟩] w0
      (by decide) (by decide)).trans (by decide)

/-- Claim C2 (amended): an asset reference is resolved, by standard
relative-URL resolution, against the href of the FIRST `base` tag of the
document when that tag exists and its href is non-empty, and otherwise
against the page's own URL; a later `base` tag's href is ignored.  An
absolute asset reference is unaffected by the join; a relative one is
joined to the base. -/
theorem c2_base_resolution :
    (∀ (url : String) (doc : List Tag),
        findTag doc "base" = none → baseUrlOf url doc = url)
    ∧ (∀ (url : String) (doc : List Tag) (t : Tag) (h : String),
        findTag doc "base" = some t → getAttr t "href" = some h → h ≠ "" →
        baseUrlOf url doc = h)
    ∧ (∀ (cfg : Config) (url : String) (doc : List Tag) (w : World),
        download_assets cfg url doc w
          = processTags cfg (baseUrlOf url doc) (basename url)
              (mkdirIfNeeded w (basename url)) doc)
    ∧ urljoin "https://example.com/a/b.html" "img/x.jpg"
        = "https://example.com/a/img/x.jpg"
    ∧ urljoin "https://cdn.example.com/" "img/x.jpg"
        = "https://cdn.example.com/img/x.jpg"
    ∧ urljoin "https://example.com/a/b.html" "https://other.example.org/style.css"
        = "https://other.example.org/style.css" := by
  refine ⟨?_, ?_, fun _ _ _ _ => rfl, by decide, by decide, by decide⟩
  · intro url doc h
    simp [baseUrlOf, h]
  · intro url doc t h hf ha hne
    simp [baseUrlOf, hf, ha, hne]

/-- Witness for C2 at concrete inputs: no base tag, and a first base tag
with a non-empty href. -/
theorem c2_witness :
    baseUrlOf "https://example.com/a/b.html"
        [⟨"img", [("src", "img/x.jpg")]⟩] = "https://example.com/a/b.html"
    ∧ baseUrlOf "https://example.com/a/b.html"
        [⟨"base", [("href", "https://cdn.example.com/")]⟩,
         ⟨"img", [("src", "img/x.jpg")]⟩] = "https://cdn.example.com/" :=
  ⟨c2_base_resolution.1 "https://example.com/a/b.html"
     [⟨"img", [("src", "img/x.jpg")]⟩] rfl,
   c2_base_resolution.2.1 "https://example.com/a/b.html"
     [⟨"base", [("href", "https://cdn.example.com/")]⟩,
      ⟨"img", [("src", "img/x.jpg")]⟩]
     ⟨"base", [("href", "https://cdn.example.com/")]⟩
     "https://cdn.example.com/" rfl rfl (by decide)⟩

/-- Counterexample to C2 as stated: in `c2doc` a `base` tag with a
non-empty href exists in the document, yet the code resolves the asset
against the page's own URL (because the FIRST `base` tag has no href),
not against that href — and the two resolutions differ. -/
theorem c2_counterexample :
    (c2doc.any (fun t => t.name == "base" && truthyAttr t "href")) = true
    ∧ urljoin (baseUrlOf "https://example.com/a/b.html" c2doc) "img/x.jpg"
        = "https://example.com/a/img/x.jpg"
    ∧ urljoin "https://cdn.example.com/" "img/x.jpg"
        = "https://cdn.example.com/img/x.jpg"
    ∧ ("https://example.com/a/img/x.jpg" : String)
        ≠ "https://cdn.example.com/img/x.jpg" :=
  ⟨by decide, by decide, by decide, by decide⟩

/-- Claim C3: the candidate filename used for the extension filter, for
the written file's path and for the rewritten reference is
`stripQuery (basename resolvedUrl)`, which equals the spec's "final path
segment of the resolved URL with everything from the first `?` onward
stripped" on every string. -/
theorem c3_candidate_filename (cfg : Config) (b d : String) (w : World)
    (t : Tag) (v : String)
    (h1 : getAttr t (assetAttrName t.name) = some v) (h2 : v ≠ "")
    (h3 : endsWithAnyExt (stripQuery (basename (urljoin b v))) = true)
    (h4 : (cfg.httpAsset (urljoin b v)).1 = 200) :
    (∀ u : String, stripQuery (basename u) = spec_candidate u)
    ∧ processAsset cfg b d w t
        = (setAttr t (assetAttrName t.name)
             (pathJoin d (stripQuery (basename (urljoin b v)))),
           { w with fetched := w.fetched ++ [urljoin b v],
                    files := upsert w.files
                      (pathJoin d (stripQuery (basename (urljoin b v))))
                      (cfg.httpAsset (urljoin b v)).2 }) := by
  constructor
  · intro u
    unfold stripQuery basename spec_candidate
    rw [lastSegment_eq]
  · simp only [processAsset, h1]
    rw [if_neg h2, if_neg (by simp [h3]), if_neg (by simp [h4])]

/-- Witness for C3 at a concrete input: a successful relative asset
download whose candidate name is `x.jpg`. -/
theorem c3_witness :
    stripQuery (basename "https://example.com/a/img/x.jpg?v=1")
      = spec_candidate "https://example.com/a/img/x.jpg?v=1"
    ∧ processAsset cfg3 "https://example.com/a/b.html" "b.html" w0
        ⟨"img", [("src", "img/x.jpg")]⟩
      = (⟨"img", [("src", "b.html/x.jpg")]⟩,
         { output := [], fetched := ["https://example.com/a/img/x.jpg"],
           dirs := [], files := [("b.html/x.jpg", "bytes")], pages := [],
           metadata := none }) :=
  ⟨(c3_candidate_filename cfg3 "https://example.com/a/b.html" "b.html" w0
      ⟨"img", [("src", "img/x.jpg")]⟩ "img/x.jpg" rfl (by decide)
      (by decide) rfl).1 "https://example.com/a/img/x.jpg?v=1",
   ((c3_candidate_filename cfg3 "https://example.com/a/b.html" "b.html" w0
      ⟨"img", [("src", "img/x.jpg")]⟩ "img/x.jpg" rfl (by decide)
      (by decide) rfl).2).trans (by decide)⟩

/-- Claim C4: an asset is downloaded only when its candidate filename
ends, case-sensitively, in an allow-listed extension; otherwise the tag
and the whole state are untouched (no request is even made) and the
reference stays unmodified in the document.  In particular
`photo.JPG?v=2` is evaluated as `photo.JPG`, whose uppercase extension is
not allow-listed. -/
theorem c4_extension_filter (cfg : Config) (b d : String) (w : World)
    (t : Tag) (v : String)
    (h1 : getAttr t (assetAttrName t.name) = some v) (h2 : v ≠ "")
    (h3 : endsWithAnyExt (stripQuery (basename (urljoin b v))) = false) :
    processAsset cfg b d w t = (t, w)
    ∧ (∀ (doc : List Tag) (w1 : World) (i : Nat), doc.get? i = some t →
        (processTags cfg b d w1 doc).1.get? i = some t)
    ∧ stripQuery (basename
          (urljoin "https://example.com/gallery/" "photo.JPG?v=2"))
        = "photo.JPG"
    ∧ endsWithAnyExt "photo.JPG" = false :=
  ⟨processAsset_skip_ext cfg b d t v h1 h2 h3 w,
   fun doc w1 i h =>
     processTags_get_of_fixed cfg b d t
       (fun w2 => by rw [processAsset_skip_ext cfg b d t v h1 h2 h3 w2])
       doc w1 i h,
   by decide, by decide⟩

/-- Witness for C4 at a concrete input: the spec's `photo.JPG?v=2` asset
is left untouched even though every request would succeed. -/
theorem c4_witness :
    processAsset cfg3 "https://example.com/gallery/" "gallery" w0
      ⟨"img", [("src", "photo.JPG?v=2")]⟩
      = (⟨"img", [("src", "photo.JPG?v=2")]⟩, w0) :=
  (c4_extension_filter cfg3 "https://example.com/gallery/" "gallery" w0
     ⟨"img", [("src", "photo.JPG?v=2")]⟩ "photo.JPG?v=2" rfl (by decide)
     (by decide)).1

/-- Claim C9: an asset whose download request returns a non-200 status is
skipped silently — no message, no file write, no directory change; only
the request itself is logged — and its tag keeps its original reference
in the output document. -/
theorem c9_asset_non200_silent (cfg : Config) (b d : String) (w : World)
    (t : Tag) (v : String)
    (h1 : getAttr t (assetAttrName t.name) = some v) (h2 : v ≠ "")
    (h3 : endsWithAnyExt (stripQuery (basename (urljoin b v))) = true)
    (h4 : (cfg.httpAsset (urljoin b v)).1 ≠ 200) :
    processAsset cfg b d w t
      = (t, { w with fetched := w.fetched ++ [urljoin b v] })
    ∧ ∀ (doc : List Tag) (w1 : World) (i : Nat), doc.get? i = some t →
        (processTags cfg b d w1 doc).1.get? i = some t :=
  ⟨processAsset_skip_status cfg b d t v h1 h2 h3 h4 w,
   fun doc w1 i h =>
     processTags_get_of_fixed cfg b d t
       (fun w2 => by rw [processAsset_skip_status cfg b d t v h1 h2 h3 h4 w2])
       doc w1 i h⟩

/-- Witness for C9 at a concrete input: a 404 asset fetch. -/
theorem c9_witness :
    processAsset cfg9 "https://example.com/" "page" w0
      ⟨"img", [("src", "x.jpg")]⟩
      = (⟨"img", [("src", "x.jpg")]⟩,
         { output := [], fetched := ["https://example.com/x.jpg"],
           dirs := [], files := [], pages := [], metadata := none }) :=
  ((c9_asset_non200_silent cfg9 "https://example.com/" "page" w0
      ⟨"img", [("src", "x.jpg")]⟩ "x.jpg" rfl (by decide) (by decide)
      (by decide)).1).trans (by decide)

end WebpageDownloader
